import Mathlib

/-!
Shallow embedding of src/broadlink/remote.py: the variant-aware packet
codec and capability model for Broadlink universal remotes.

Bytes are modelled as Nat values below 256 and byte strings as List Nat.
The encrypted transport (device.send_packet, decrypt, check_error) is an
external collaborator; every operation therefore takes the decrypted
response buffer as an explicit argument and returns the list of packets
handed to the transport together with its outcome.
-/

namespace Broadlink

/-! ## Little-endian integers, modelling struct.pack and struct.unpack -/

/-- Little-endian byte encoding of n on w bytes, as written by struct.pack. -/
def toLE : Nat → Nat → List Nat
  | 0, _ => []
  | w + 1, n => n % 256 :: toLE w (n / 256)

/-- Little-endian value of a byte list, as read by struct.unpack. -/
def fromLE (bs : List Nat) : Nat :=
  bs.foldr (fun b acc => b + 256 * acc) 0

/-- struct.pack with format <I: one 4-byte little-endian field; raises
struct.error (here: none) for values outside the unsigned 32-bit range. -/
def packU32 (n : Nat) : Option (List Nat) :=
  if n < 2 ^ 32 then some (toLE 4 n) else none

/-- struct.pack with format <HI: a 2-byte then a 4-byte little-endian
field; raises struct.error (here: none) when a field is out of range. -/
def packU16U32 (m n : Nat) : Option (List Nat) :=
  if m < 2 ^ 16 ∧ n < 2 ^ 32 then some (toLE 2 m ++ toLE 4 n) else none

/-- Signed interpretation of a byte, as struct.unpack format b. -/
def sbyte (b : Nat) : ℚ :=
  if b < 128 then (b : ℚ) else (b : ℚ) - 256

/-! ## Frame codec -/

/-- The two mutually exclusive framing strategies. -/
inductive Framing
  | legacy
  | extended
deriving DecidableEq

/-- Outbound packet construction, from rmmini._send (legacy framing,
packet = struct.pack of the command on 4 bytes followed by data) and
rmminib._send (extended framing, packet = struct.pack of len(data) + 4
on 2 bytes and the command on 4 bytes, followed by data). -/
def encodePacket : Framing → Nat → List Nat → Option (List Nat)
  | .legacy, command, data => (packU32 command).map (fun hd => hd ++ data)
  | .extended, command, data =>
      (packU16U32 (data.length + 4) command).map (fun hd => hd ++ data)

/-- Logical payload extraction from the decrypted response buffer.
Legacy (rmmini._send): payload sliced from offset 4, total.
Extended (rmminib._send): p_len is struct.unpack of the first two bytes,
which raises when fewer than two bytes are available (here: none), then
the slice from offset 6 to p_len + 2; Python slicing clamps the bounds
to the available range. -/
def decodeLogical : Framing → List Nat → Option (List Nat)
  | .legacy, d => some (d.drop 4)
  | .extended, d =>
      match d with
      | b0 :: b1 :: _ => some ((d.drop 6).take (b0 + 256 * b1 + 2 - 6))
      | _ => none

/-! ## UTF-8, modelling the strict bytes decode used for the name field -/

/-- Continuation byte test for UTF-8. -/
def utf8Cont (b : Nat) : Bool :=
  0x80 ≤ b && b < 0xC0

/-- Strict UTF-8 decoding with explicit fuel; one leading byte and its
continuation bytes are consumed per step, so fuel equal to the length of
the input suffices. Overlong encodings, surrogates and values above
0x10FFFF are rejected, as in the Python bytes decode. -/
def utf8DecodeFuel : Nat → List Nat → Option (List Char)
  | _, [] => some []
  | 0, _ :: _ => none
  | fuel + 1, b :: bs =>
    if b < 0x80 then
      (utf8DecodeFuel fuel bs).map (fun cs => Char.ofNat b :: cs)
    else if 0xC2 ≤ b && b ≤ 0xDF then
      match bs with
      | b1 :: bs1 =>
        if utf8Cont b1 then
          (utf8DecodeFuel fuel bs1).map
            (fun cs => Char.ofNat ((b - 0xC0) * 0x40 + (b1 - 0x80)) :: cs)
        else none
      | [] => none
    else if 0xE0 ≤ b && b ≤ 0xEF then
      match bs with
      | b1 :: b2 :: bs2 =>
        if (if b = 0xE0 then 0xA0 ≤ b1 && b1 ≤ 0xBF
            else if b = 0xED then 0x80 ≤ b1 && b1 ≤ 0x9F
            else utf8Cont b1) && utf8Cont b2 then
          (utf8DecodeFuel fuel bs2).map
            (fun cs =>
              Char.ofNat ((b - 0xE0) * 0x1000 + (b1 - 0x80) * 0x40 + (b2 - 0x80)) :: cs)
        else none
      | _ => none
    else if 0xF0 ≤ b && b ≤ 0xF4 then
      match bs with
      | b1 :: b2 :: b3 :: bs3 =>
        if (if b = 0xF0 then 0x90 ≤ b1 && b1 ≤ 0xBF
            else if b = 0xF4 then 0x80 ≤ b1 && b1 ≤ 0x8F
            else utf8Cont b1) && utf8Cont b2 && utf8Cont b3 then
          (utf8DecodeFuel fuel bs3).map
            (fun cs =>
              Char.ofNat
                ((b - 0xF0) * 0x40000 + (b1 - 0x80) * 0x1000 +
                  (b2 - 0x80) * 0x40 + (b3 - 0x80)) :: cs)
        else none
      | _ => none
    else none

/-- Strict UTF-8 decode of a byte list, as the Python bytes decode. -/
def utf8Decode (bs : List Nat) : Option String :=
  (utf8DecodeFuel bs.length bs).map (fun cs => String.mk cs)

/-! ## Response parsers -/

/-- Bytes of the name field of a status response: the slice from offset
0x48 up to but excluding the first NUL byte, as in
resp sliced at 0x48, split on NUL, first chunk (rmmini.fetch_data). -/
def nameFieldBytes (resp : List Nat) : List Nat :=
  (resp.drop 0x48).takeWhile (fun b => b != 0)

deriving instance DecidableEq for Except

/-- Typed result of fetch_data. -/
structure FetchReading where
  name : String
  is_locked : Bool
  temperature : Option ℚ
deriving DecidableEq

/-- Typed result of check_sensors. -/
structure SensorReading where
  temperature : ℚ
  humidity : Option ℚ
deriving DecidableEq

/-- Local decode failures of a single call. -/
inductive ProtoError
  | unsupportedOperation
  | packOverflow
  | frameTooShort
  | payloadTooShort
  | keyError
deriving DecidableEq

/-- Typed values produced by the operations. -/
inductive RValue
  | unit
  | bytes (bs : List Nat)
  | bool (b : Bool)
  | fetched (r : FetchReading)
  | reading (r : SensorReading)
  | temp (t : ℚ)
  | hum (h : ℚ)
deriving DecidableEq

/-- rmmini.fetch_data field extraction: name decoded as UTF-8 from the
slice at 0x48 up to the first NUL, is_locked the truth value of the byte
at 0x87; indexing past the end of the buffer raises (here: an error). -/
def fetchDataMini (resp : List Nat) : Except ProtoError RValue :=
  match utf8Decode (nameFieldBytes resp), resp[0x87]? with
  | some s, some b => .ok (.fetched ⟨s, b != 0, none⟩)
  | _, _ => .error .payloadTooShort

/-- rmpro.fetch_data field extraction: temperature from the two leading
bytes via struct.unpack format bb (raising when fewer than two bytes are
available), then the same name and lock fields as rmmini.fetch_data. -/
def fetchDataPro (resp : List Nat) : Except ProtoError RValue :=
  match resp with
  | b0 :: b1 :: _ =>
    match utf8Decode (nameFieldBytes resp), resp[0x87]? with
    | some s, some b => .ok (.fetched ⟨s, b != 0, some (sbyte b0 + sbyte b1 / 10)⟩)
    | _, _ => .error .payloadTooShort
  | _ => .error .payloadTooShort

/-- rmpro.check_sensors: temperature from the two leading signed bytes,
scaled by a divisor of 10; no humidity field. -/
def checkSensorsPro (resp : List Nat) : Except ProtoError RValue :=
  match resp with
  | b0 :: b1 :: _ => .ok (.reading ⟨sbyte b0 + sbyte b1 / 10, none⟩)
  | _ => .error .payloadTooShort

/-- rm4mini.check_sensors: temperature from the two leading signed bytes
scaled by 100, humidity from the unsigned bytes at offsets 2 and 3
scaled by 100; indexing past the end raises (here: an error). -/
def checkSensorsRm4 (resp : List Nat) : Except ProtoError RValue :=
  match resp with
  | b0 :: b1 :: b2 :: b3 :: _ =>
      .ok (.reading ⟨sbyte b0 + sbyte b1 / 100, some ((b2 : ℚ) + (b3 : ℚ) / 100)⟩)
  | _ => .error .payloadTooShort

/-! ## Variant registry: the class hierarchy and its method resolution -/

/-- The seven device classes of remote.py. The external base class
device (transport) is out of scope and omitted; every class below
inherits from rmmini at the root. -/
inductive Cls
  | rmmini
  | rmpro
  | rmminib
  | rm4mini
  | rm4pro
  | rm
  | rm4
deriving DecidableEq, Fintype

/-- The logical operations of the dispatcher, one per public method. -/
inductive Op
  | fetch_data
  | send_data
  | enter_learning
  | check_data
  | sweep_frequency
  | check_frequency
  | find_rf_packet
  | cancel_sweep_frequency
  | check_sensors
  | check_temperature
  | check_humidity
deriving DecidableEq, Fintype

/-- Python method resolution order of each class, with the external base
omitted: rmpro and rmminib extend rmmini, rm4mini extends rmminib,
rm4pro extends rm4mini and rmpro (C3 linearization), rm extends rmpro
and rm4 extends rm4pro. -/
def mro : Cls → List Cls
  | .rmmini => [.rmmini]
  | .rmpro => [.rmpro, .rmmini]
  | .rmminib => [.rmminib, .rmmini]
  | .rm4mini => [.rm4mini, .rmminib, .rmmini]
  | .rm4pro => [.rm4pro, .rm4mini, .rmminib, .rmpro, .rmmini]
  | .rm => [.rm, .rmpro, .rmmini]
  | .rm4 => [.rm4, .rm4pro, .rm4mini, .rmminib, .rmpro, .rmmini]

/-- Which class bodies define which operation methods, read off the
class definitions in remote.py. -/
def definesOp : Cls → Op → Bool
  | .rmmini, .fetch_data => true
  | .rmmini, .send_data => true
  | .rmmini, .enter_learning => true
  | .rmmini, .check_data => true
  | .rmpro, .fetch_data => true
  | .rmpro, .sweep_frequency => true
  | .rmpro, .check_frequency => true
  | .rmpro, .find_rf_packet => true
  | .rmpro, .cancel_sweep_frequency => true
  | .rmpro, .check_sensors => true
  | .rmpro, .check_temperature => true
  | .rm4mini, .check_sensors => true
  | .rm4mini, .check_temperature => true
  | .rm4mini, .check_humidity => true
  | _, _ => false

/-- The class in whose body an invoked method is found: the first class
of the method resolution order that defines it. -/
def definer (c : Cls) (op : Op) : Option Cls :=
  (mro c).find? (fun k => definesOp k op)

/-- Classes overriding the _send method: rmmini with legacy framing and
rmminib with extended framing. -/
def clsFraming : Cls → Option Framing
  | .rmmini => some .legacy
  | .rmminib => some .extended
  | _ => none

/-- The framing a class resolves to: the first _send override along the
method resolution order. Every class inherits from rmmini, so the
default is never used. -/
def framing (c : Cls) : Framing :=
  ((mro c).findSome? clsFraming).getD .legacy

def Features.LEARN_IR_CODE : Nat := 1
def Features.SEND_IR_CODE : Nat := 2
def Features.LEARN_RF_CODE : Nat := 4
def Features.SEND_RF_CODE : Nat := 8
def Features.CHECK_TEMPERATURE : Nat := 16
def Features.CHECK_HUMIDITY : Nat := 32

/-- Classes overriding the supported_features property, with the bitset
value computed in the property body. -/
def clsFeatures : Cls → Option Nat
  | .rmmini => some (Features.LEARN_IR_CODE ||| Features.SEND_IR_CODE)
  | .rmpro =>
      some (Features.LEARN_IR_CODE ||| Features.SEND_IR_CODE |||
        Features.LEARN_RF_CODE ||| Features.SEND_RF_CODE |||
        Features.CHECK_TEMPERATURE)
  | .rm4mini =>
      some (Features.LEARN_IR_CODE ||| Features.SEND_IR_CODE |||
        Features.CHECK_TEMPERATURE ||| Features.CHECK_HUMIDITY)
  | .rm4pro =>
      some (Features.LEARN_IR_CODE ||| Features.SEND_IR_CODE |||
        Features.LEARN_RF_CODE ||| Features.SEND_RF_CODE |||
        Features.CHECK_TEMPERATURE ||| Features.CHECK_HUMIDITY)
  | _ => none

/-- The declared Feature Flags of a class: the first supported_features
override along the method resolution order. -/
def supported_features (c : Cls) : Nat :=
  ((mro c).findSome? clsFeatures).getD 0

/-! ## Operation dispatcher -/

/-- The command opcode and payload each method body hands to _send,
read off the method bodies in remote.py. check_temperature and
check_humidity do not call _send themselves (they delegate to
check_sensors) and yield none. -/
def commandOf (k : Cls) (op : Op) (arg : List Nat) : Option (Nat × List Nat) :=
  match op with
  | .fetch_data => some (0x1, [])
  | .send_data => some (0x2, arg)
  | .enter_learning => some (0x3, [])
  | .check_data => some (0x4, [])
  | .sweep_frequency => some (0x19, [])
  | .check_frequency => some (0x1A, [])
  | .find_rf_packet => some (0x1B, [])
  | .cancel_sweep_frequency => some (0x1E, [])
  | .check_sensors => some (if k = .rm4mini then 0x24 else 0x1, [])
  | .check_temperature => none
  | .check_humidity => none

/-- What each method body does with the logical payload returned by
_send, per defining class: the response parsers of remote.py. The
check_temperature and check_humidity branches are unreachable because
invoke treats those operations through check_sensors. -/
def bodyParse (k : Cls) (op : Op) (resp : List Nat) : Except ProtoError RValue :=
  match op with
  | .fetch_data => if k = .rmpro then fetchDataPro resp else fetchDataMini resp
  | .send_data => .ok .unit
  | .enter_learning => .ok .unit
  | .check_data => .ok (.bytes resp)
  | .sweep_frequency => .ok .unit
  | .check_frequency =>
      match resp with
      | b :: _ => .ok (.bool (b == 1))
      | [] => .error .payloadTooShort
  | .find_rf_packet => .ok .unit
  | .cancel_sweep_frequency => .ok .unit
  | .check_sensors => if k = .rm4mini then checkSensorsRm4 resp else checkSensorsPro resp
  | .check_temperature => .error .unsupportedOperation
  | .check_humidity => .error .unsupportedOperation

/-- One dispatcher call that goes to the wire: resolve the method, build
the packet with the _send of the class, hand it to the transport, strip
the framing from the decrypted response and parse. The first component
collects every packet handed to the transport. An unresolved method is
the pre-flight local failure, with no packet emitted. -/
def invokeBase (c : Cls) (op : Op) (arg : List Nat) (decrypted : List Nat) :
    List (List Nat) × Except ProtoError RValue :=
  match definer c op with
  | none => ([], .error .unsupportedOperation)
  | some k =>
    match commandOf k op arg with
    | none => ([], .error .unsupportedOperation)
    | some (command, data) =>
      ((encodePacket (framing c) command data).toList,
        match encodePacket (framing c) command data with
        | none => .error .packOverflow
        | some _ =>
          match decodeLogical (framing c) decrypted with
          | none => .error .frameTooShort
          | some resp => bodyParse k op resp)

/-- A dispatcher call. check_temperature and check_humidity delegate to
the check_sensors resolved on the same instance and project one field of
the reading, as their method bodies do; every other operation is a
direct wire call. -/
def invoke (c : Cls) (op : Op) (arg : List Nat) (decrypted : List Nat) :
    List (List Nat) × Except ProtoError RValue :=
  match op with
  | .check_temperature =>
    match definer c .check_temperature with
    | none => ([], .error .unsupportedOperation)
    | some _ =>
      let r := invokeBase c .check_sensors arg decrypted
      (r.1, r.2.bind (fun v =>
        match v with
        | .reading rd => .ok (.temp rd.temperature)
        | _ => .error .payloadTooShort))
  | .check_humidity =>
    match definer c .check_humidity with
    | none => ([], .error .unsupportedOperation)
    | some _ =>
      let r := invokeBase c .check_sensors arg decrypted
      (r.1, r.2.bind (fun v =>
        match v with
        | .reading rd =>
          match rd.humidity with
          | some h => .ok (.hum h)
          | none => .error .keyError
        | _ => .error .payloadTooShort))
  | _ => invokeBase c op arg decrypted

/-- The feature flag an operation is gated by in the capability model:
learning and code readback by LEARN_IR_CODE, sending by SEND_IR_CODE,
the frequency sweep sequence by LEARN_RF_CODE, the sensor reads by
CHECK_TEMPERATURE and CHECK_HUMIDITY; fetch_data is ungated. -/
def requiredFeature : Op → Option Nat
  | .fetch_data => none
  | .send_data => some Features.SEND_IR_CODE
  | .enter_learning => some Features.LEARN_IR_CODE
  | .check_data => some Features.LEARN_IR_CODE
  | .sweep_frequency => some Features.LEARN_RF_CODE
  | .check_frequency => some Features.LEARN_RF_CODE
  | .find_rf_packet => some Features.LEARN_RF_CODE
  | .cancel_sweep_frequency => some Features.LEARN_RF_CODE
  | .check_sensors => some Features.CHECK_TEMPERATURE
  | .check_temperature => some Features.CHECK_TEMPERATURE
  | .check_humidity => some Features.CHECK_HUMIDITY

/-! ## Concrete data used by individual claims -/

/-- The UTF-8 bytes of the string Living Room. -/
def livingRoomBytes : List Nat :=
  [0x4C, 0x69, 0x76, 0x69, 0x6E, 0x67, 0x20, 0x52, 0x6F, 0x6F, 0x6D]

/-- A 136-byte logical status payload with distinct markers at the
offsets in dispute: byte 0x41 then NUL at offset 0x44, byte 0x42 then
NUL at offset 0x48, a zero byte at offset 0x83 and the byte 1 at offset
0x87; filler bytes are 0x2E. -/
def claim4Input : List Nat :=
  List.replicate 0x44 0x2E ++ [0x41, 0x00, 0x2E, 0x2E, 0x42, 0x00] ++
    List.replicate 0x39 0x2E ++ [0x00, 0x2E, 0x2E, 0x2E, 0x01]

/-! ## Helper lemmas -/

theorem toLE_length (w : Nat) : ∀ n, (toLE w n).length = w := by
  induction w with
  | zero => intro n; rfl
  | succ k ih => intro n; simp [toLE, ih]

theorem fromLE_toLE (w : Nat) : ∀ n, fromLE (toLE w n) = n % 2 ^ (8 * w) := by
  induction w with
  | zero => intro n; simp [toLE, fromLE, Nat.mod_one]
  | succ k ih =>
    intro n
    show fromLE (n % 256 :: toLE k (n / 256)) = n % 2 ^ (8 * (k + 1))
    have h1 : fromLE (n % 256 :: toLE k (n / 256)) =
        n % 256 + 256 * fromLE (toLE k (n / 256)) := rfl
    have h2 : (2 : Nat) ^ (8 * (k + 1)) = 256 * 2 ^ (8 * k) := by ring
    rw [h1, ih, h2, Nat.mod_mul]

theorem takeWhile_append_zero (xs : List Nat) :
    ∀ rest, (∀ x ∈ xs, x ≠ 0) →
    (xs ++ 0 :: rest).takeWhile (fun b => b != 0) = xs := by
  induction xs with
  | nil => intro rest _; simp [List.takeWhile]
  | cons a l ih =>
    intro rest h
    have ha : (a != 0) = true := by simpa using h a (by simp)
    simp only [List.cons_append, List.takeWhile_cons, ha, if_true]
    rw [ih rest (fun x hx => h x (by simp [hx]))]

theorem gate_blocks :
    ∀ (c : Cls) (op : Op),
    (match requiredFeature op with
     | some f => f &&& supported_features c == 0
     | none => false) = true →
    definer c op = none := by decide

/-! ## Claim theorems -/

/-- Claim C1, amended: for every 32-bit opcode, the legacy codec frames
every payload as the 4-byte little-endian opcode followed directly by
the payload, and the extended codec frames every payload whose length
plus 4 fits in 16 bits as the 2-byte little-endian value of length plus
4, the 4-byte little-endian opcode, then the payload (for longer
payloads encoding raises instead of producing a frame, see the
counterexample); on decode the legacy logical payload is the decrypted
buffer from offset 4 to the end, and the extended logical payload is
the slice from offset 6 to offset p_len plus 2 exclusive, where p_len
is the little-endian 16-bit value of the first two bytes. -/
theorem claim1_frame_codec :
    ∀ (command : Nat) (data : List Nat), command < 2 ^ 32 →
    (∃ f, encodePacket .legacy command data = some f ∧
      f.length = 4 + data.length ∧ fromLE (f.take 4) = command ∧ f.drop 4 = data) ∧
    (data.length + 4 < 2 ^ 16 →
      ∃ f, encodePacket .extended command data = some f ∧
        fromLE (f.take 2) = data.length + 4 ∧
        fromLE ((f.drop 2).take 4) = command ∧ f.drop 6 = data) ∧
    (∀ d : List Nat, decodeLogical .legacy d = some (d.drop 4)) ∧
    (∀ (b0 b1 : Nat) (t : List Nat),
      decodeLogical .extended (b0 :: b1 :: t) =
        some (((b0 :: b1 :: t).drop 6).take (fromLE [b0, b1] + 2 - 6))) := by
  intro command data hcmd
  refine ⟨?_, ?_, fun d => rfl, ?_⟩
  · have hp : packU32 command = some (toLE 4 command) := by
      unfold packU32
      rw [if_pos hcmd]
    refine ⟨toLE 4 command ++ data, ?_, ?_, ?_, ?_⟩
    · simp [encodePacket, hp]
    · simp [toLE_length]
    · rw [List.take_left' (toLE_length 4 command), fromLE_toLE]
      exact Nat.mod_eq_of_lt hcmd
    · rw [List.drop_left' (toLE_length 4 command)]
  · intro hlen
    have hp : packU16U32 (data.length + 4) command =
        some (toLE 2 (data.length + 4) ++ toLE 4 command) := by
      unfold packU16U32
      rw [if_pos ⟨hlen, hcmd⟩]
    refine ⟨(toLE 2 (data.length + 4) ++ toLE 4 command) ++ data, ?_, ?_, ?_, ?_⟩
    · simp [encodePacket, hp]
    · rw [List.append_assoc, List.take_left' (toLE_length 2 _), fromLE_toLE]
      exact Nat.mod_eq_of_lt hlen
    · rw [List.append_assoc, List.drop_left' (toLE_length 2 _),
        List.take_left' (toLE_length 4 _), fromLE_toLE]
      exact Nat.mod_eq_of_lt hcmd
    · exact List.drop_left' (by simp [toLE_length])
  · intro b0 b1 t
    simp [decodeLogical, fromLE]

/-- Claim C1 counterexample: the frozen claim quantifies over every
byte-sequence payload, but on a payload of 65532 bytes the extended
codec raises from struct.pack, since the length field would need to
hold 65536; no frame with a length field is produced. -/
theorem claim1_frame_codec_counterexample :
    encodePacket .extended 0x2 (List.replicate 65532 0) = none := by
  simp only [encodePacket, packU16U32, List.length_replicate]
  decide

/-- Claim C1 witness at opcode 0x5A and payload [0xAB, 0xCD]. -/
theorem claim1_frame_codec_witness :
    (0x5A : Nat) < 2 ^ 32 ∧ ([0xAB, 0xCD] : List Nat).length + 4 < 2 ^ 16 ∧
    (∃ f, encodePacket .legacy 0x5A [0xAB, 0xCD] = some f ∧
      f.length = 4 + ([0xAB, 0xCD] : List Nat).length ∧
      fromLE (f.take 4) = 0x5A ∧ f.drop 4 = [0xAB, 0xCD]) ∧
    (∃ f, encodePacket .extended 0x5A [0xAB, 0xCD] = some f ∧
      fromLE (f.take 2) = ([0xAB, 0xCD] : List Nat).length + 4 ∧
      fromLE ((f.drop 2).take 4) = 0x5A ∧ f.drop 6 = [0xAB, 0xCD]) := by
  have h := claim1_frame_codec 0x5A [0xAB, 0xCD] (by decide)
  exact ⟨by decide, by decide, h.1, h.2.1 (by decide)⟩

/-- Claim C3, amended: the legacy logical-payload extraction never
fails and returns the decrypted buffer from offset 4 on, empty for
buffers shorter than 4 bytes; the extended extraction fails exactly
when the buffer holds fewer than the 2 bytes of the length field, and
otherwise returns the slice from offset 6 to p_len plus 2, clamped to
the available bytes: the result is always a contiguous infix of the
buffer, so no out-of-bounds read occurs, but an oversized length field
silently truncates instead of failing. -/
theorem claim3_decode_bounds :
    ∀ d : List Nat,
    decodeLogical .legacy d = some (d.drop 4) ∧
    (d.length < 2 → decodeLogical .extended d = none) ∧
    (∀ b0 b1 t, d = b0 :: b1 :: t →
      ∃ r, decodeLogical .extended d = some r ∧
        r = (d.drop 6).take (b0 + 256 * b1 + 2 - 6) ∧
        ∃ pre post, pre ++ r ++ post = d) := by
  intro d
  refine ⟨rfl, ?_, ?_⟩
  · intro h
    cases d with
    | nil => rfl
    | cons b0 t =>
      cases t with
      | nil => rfl
      | cons b1 t2 =>
        simp only [List.length_cons] at h
        exact absurd h (by omega)
  · intro b0 b1 t hd
    subst hd
    refine ⟨_, rfl, rfl,
      ⟨(b0 :: b1 :: t).take 6,
        ((b0 :: b1 :: t).drop 6).drop (b0 + 256 * b1 + 2 - 6), ?_⟩⟩
    rw [List.append_assoc, List.take_append_drop, List.take_append_drop]

/-- Claim C3 counterexample: on the decrypted buffer [10, 0] the
extended extraction succeeds with an empty payload even though the
buffer is shorter than the 6-byte header and p_len plus 2 equals 12,
which exceeds the buffer length; the frozen claim requires a failure
here. A 2-byte legacy buffer likewise decodes to an empty payload
instead of failing. -/
theorem claim3_decode_bounds_counterexample :
    decodeLogical .extended [10, 0] = some [] ∧
    decodeLogical .legacy [1, 2] = some [] := by decide

/-- Claim C3 witness: a one-byte extended buffer fails, and a ten-byte
extended buffer with length field 6 decodes to its two payload bytes,
an infix of the buffer. -/
theorem claim3_decode_bounds_witness :
    decodeLogical .extended [9] = none ∧
    (∃ r, decodeLogical .extended [6, 0, 11, 12, 13, 14, 21, 22, 23, 24] = some r ∧
      r = (([6, 0, 11, 12, 13, 14, 21, 22, 23, 24] : List Nat).drop 6).take
        (6 + 256 * 0 + 2 - 6) ∧
      ∃ pre post, pre ++ r ++ post = [6, 0, 11, 12, 13, 14, 21, 22, 23, 24]) :=
  ⟨(claim3_decode_bounds [9]).2.1 (by decide),
    (claim3_decode_bounds [6, 0, 11, 12, 13, 14, 21, 22, 23, 24]).2.2 6 0 _ rfl⟩

/-- Claim C10: for every 32-bit opcode and every payload whose length
plus 4 fits in 16 bits the extended frame begins with exactly the
little-endian 16-bit value of length plus 4, and for any longer
payload encoding fails outright rather than wrapping the length
modulo 2 to the 16. -/
theorem claim10_length_field :
    ∀ (command : Nat) (data : List Nat), command < 2 ^ 32 →
    (data.length + 4 < 2 ^ 16 →
      ∃ f, encodePacket .extended command data = some f ∧
        f.take 2 = toLE 2 (data.length + 4) ∧
        fromLE (f.take 2) = data.length + 4) ∧
    (2 ^ 16 ≤ data.length + 4 → encodePacket .extended command data = none) := by
  intro command data hcmd
  constructor
  · intro hlen
    have hp : packU16U32 (data.length + 4) command =
        some (toLE 2 (data.length + 4) ++ toLE 4 command) := by
      unfold packU16U32
      rw [if_pos ⟨hlen, hcmd⟩]
    refine ⟨(toLE 2 (data.length + 4) ++ toLE 4 command) ++ data, ?_, ?_, ?_⟩
    · simp [encodePacket, hp]
    · rw [List.append_assoc, List.take_left' (toLE_length 2 _)]
    · rw [List.append_assoc, List.take_left' (toLE_length 2 _), fromLE_toLE]
      exact Nat.mod_eq_of_lt hlen
  · intro hlen
    have hp : packU16U32 (data.length + 4) command = none := by
      unfold packU16U32
      rw [if_neg]
      omega
    simp [encodePacket, hp]

/-- Claim C10 witness: a 3-byte payload yields the length field 7, and
the 65532-byte payload is rejected. -/
theorem claim10_length_field_witness :
    (∃ f, encodePacket .extended 0x2 [7, 7, 7] = some f ∧
      f.take 2 = toLE 2 (([7, 7, 7] : List Nat).length + 4) ∧
      fromLE (f.take 2) = ([7, 7, 7] : List Nat).length + 4) ∧
    encodePacket .extended 0x2 (List.replicate 65532 0) = none := by
  have h1 := (claim10_length_field 0x2 [7, 7, 7] (by decide)).1 (by decide)
  have h2 := (claim10_length_field 0x2 (List.replicate 65532 0) (by decide)).2
    (by rw [List.length_replicate]; decide)
  exact ⟨h1, h2⟩

/-- Claim C2: for every variant and every operation whose gating feature
flag is absent from the declared Feature Flags of the variant, invoking
the operation fails locally before any packet is handed to the
transport: the packet trace is empty and the outcome is the
unsupported-operation error. In remote.py the failure is the attribute
lookup missing on every class of the method resolution order; the spec
names this pre-flight failure UnsupportedOperation. -/
theorem claim2_feature_gating (c : Cls) (op : Op) (f : Nat)
    (hreq : requiredFeature op = some f)
    (habs : f &&& supported_features c = 0)
    (arg decrypted : List Nat) :
    invoke c op arg decrypted = ([], .error .unsupportedOperation) := by
  have hnone : definer c op = none := by
    apply gate_blocks
    rw [hreq]
    simp [habs]
  cases op <;> simp [invoke, invokeBase, hnone]

/-- Claim C2 witness: rmpro lacks CHECK_HUMIDITY, and invoking
check_humidity on it yields the local failure with no packet sent. -/
theorem claim2_feature_gating_witness :
    requiredFeature .check_humidity = some Features.CHECK_HUMIDITY ∧
    Features.CHECK_HUMIDITY &&& supported_features .rmpro = 0 ∧
    invoke .rmpro .check_humidity [] [] = ([], .error .unsupportedOperation) :=
  ⟨rfl, by decide,
    claim2_feature_gating .rmpro .check_humidity Features.CHECK_HUMIDITY rfl
      (by decide) [] []⟩

/-- Claim C4, amended: in the legacy-framing status parse the name is
decoded as UTF-8 from byte offset 0x48 of the logical payload up to the
first NUL byte, and is_locked is the byte at offset 0x87 interpreted as
true exactly when nonzero. Relative to the decrypted buffer these are
offsets 0x4C and 0x8B; the frozen claim says 0x44 and 0x83, which match
neither reference point. -/
theorem claim4_status_offsets :
    ∀ (resp : List Nat) (b : Nat) (s : String),
    resp[0x87]? = some b →
    utf8Decode (nameFieldBytes resp) = some s →
    fetchDataMini resp = .ok (.fetched ⟨s, b != 0, none⟩) ∧
    (∀ b0 b1 t, resp = b0 :: b1 :: t →
      fetchDataPro resp = .ok (.fetched ⟨s, b != 0, some (sbyte b0 + sbyte b1 / 10)⟩)) := by
  intro resp b s h87 hname
  constructor
  · simp only [fetchDataMini]
    rw [hname, h87]
  · intro b0 b1 t hresp
    subst hresp
    simp only [fetchDataPro]
    rw [hname, h87]

set_option maxRecDepth 40000 in
/-- Claim C4 counterexample: on a payload carrying the byte for A
followed by NUL at offset 0x44, the byte for B followed by NUL at
offset 0x48, zero at offset 0x83 and one at offset 0x87, the status
parse returns the name B and is_locked true, while the frozen claim
(name from 0x44, lock byte at 0x83) would give the name A and
is_locked false. -/
theorem claim4_status_offsets_counterexample :
    fetchDataMini claim4Input = .ok (.fetched ⟨"B", true, none⟩) ∧
    (claim4Input.drop 0x44).takeWhile (fun x => x != 0) = [0x41] ∧
    utf8Decode [0x41] = some "A" ∧
    claim4Input[0x83]? = some 0 := by decide

set_option maxRecDepth 40000 in
/-- Claim C4 witness at the concrete 136-byte payload. -/
theorem claim4_status_offsets_witness :
    claim4Input[0x87]? = some 1 ∧
    utf8Decode (nameFieldBytes claim4Input) = some "B" ∧
    fetchDataMini claim4Input = .ok (.fetched ⟨"B", true, none⟩) := by
  have h := claim4_status_offsets claim4Input 1 "B" (by decide) (by decide)
  exact ⟨by decide, by decide, h.1⟩

/-- Claim C5: for every logical payload long enough to hold the sensor
fields, generation A (rmpro.check_sensors) decodes temperature from the
two signed leading bytes as b0 plus b1 over 10 and exposes no humidity
field, and generation B (rm4mini.check_sensors) decodes temperature as
b0 plus b1 over 100 and humidity from the unsigned bytes at offsets 2
and 3 as b2 plus b3 over 100; the bytes 0x19, 0x02 yield 25.2 and
25.02 respectively, and the bytes 0x3C, 0x05 yield humidity 60.05. -/
theorem claim5_sensor_decode :
    ∀ (b0 b1 b2 b3 : Nat) (t : List Nat), b0 < 256 → b1 < 256 →
    checkSensorsPro (b0 :: b1 :: t) =
      .ok (.reading ⟨sbyte b0 + sbyte b1 / 10, none⟩) ∧
    checkSensorsRm4 (b0 :: b1 :: b2 :: b3 :: t) =
      .ok (.reading ⟨sbyte b0 + sbyte b1 / 100, some ((b2 : ℚ) + (b3 : ℚ) / 100)⟩) ∧
    checkSensorsPro [0x19, 0x02] = .ok (.reading ⟨(25.2 : ℚ), none⟩) ∧
    checkSensorsRm4 [0x19, 0x02, 0x3C, 0x05] =
      .ok (.reading ⟨(25.02 : ℚ), some (60.05 : ℚ)⟩) := by
  intro b0 b1 b2 b3 t h0 h1
  refine ⟨rfl, rfl, ?_, ?_⟩
  · simp only [checkSensorsPro]
    norm_num [sbyte]
  · simp only [checkSensorsRm4]
    norm_num [sbyte]

/-- Claim C5 witness at the concrete byte pairs of the claim. -/
theorem claim5_sensor_decode_witness :
    (0x19 : Nat) < 256 ∧ (0x02 : Nat) < 256 ∧
    checkSensorsPro [0x19, 0x02] = .ok (.reading ⟨(25.2 : ℚ), none⟩) ∧
    checkSensorsRm4 [0x19, 0x02, 0x3C, 0x05] =
      .ok (.reading ⟨(25.02 : ℚ), some (60.05 : ℚ)⟩) := by
  have h := claim5_sensor_decode 0x19 0x02 0x3C 0x05 [] (by decide) (by decide)
  exact ⟨by decide, by decide, h.2.2.1, h.2.2.2⟩

/-- Claim C6: each variant resolves to exactly one framing strategy,
one response-parser pair (the defining classes of fetch_data and
check_sensors) and one Feature Flags value, matching the capability
table, and the aliases rm and rm4 behave identically to rmpro and
rm4pro: for every operation, argument and transport response they emit
the same packets and return the same results. -/
theorem claim6_variant_table :
    (framing .rmmini = .legacy ∧
      supported_features .rmmini = (Features.LEARN_IR_CODE ||| Features.SEND_IR_CODE) ∧
      definer .rmmini .fetch_data = some .rmmini ∧
      definer .rmmini .check_sensors = none) ∧
    (framing .rmpro = .legacy ∧
      supported_features .rmpro =
        (Features.LEARN_IR_CODE ||| Features.SEND_IR_CODE |||
          Features.LEARN_RF_CODE ||| Features.SEND_RF_CODE |||
          Features.CHECK_TEMPERATURE) ∧
      definer .rmpro .fetch_data = some .rmpro ∧
      definer .rmpro .check_sensors = some .rmpro) ∧
    (framing .rmminib = .extended ∧
      supported_features .rmminib = (Features.LEARN_IR_CODE ||| Features.SEND_IR_CODE) ∧
      definer .rmminib .fetch_data = some .rmmini ∧
      definer .rmminib .check_sensors = none) ∧
    (framing .rm4mini = .extended ∧
      supported_features .rm4mini =
        (Features.LEARN_IR_CODE ||| Features.SEND_IR_CODE |||
          Features.CHECK_TEMPERATURE ||| Features.CHECK_HUMIDITY) ∧
      definer .rm4mini .fetch_data = some .rmmini ∧
      definer .rm4mini .check_sensors = some .rm4mini) ∧
    (framing .rm4pro = .extended ∧
      supported_features .rm4pro =
        (Features.LEARN_IR_CODE ||| Features.SEND_IR_CODE |||
          Features.LEARN_RF_CODE ||| Features.SEND_RF_CODE |||
          Features.CHECK_TEMPERATURE ||| Features.CHECK_HUMIDITY) ∧
      definer .rm4pro .fetch_data = some .rmpro ∧
      definer .rm4pro .check_sensors = some .rm4mini) ∧
    (∀ (op : Op) (arg decrypted : List Nat),
      invoke .rm op arg decrypted = invoke .rmpro op arg decrypted ∧
      invoke .rm4 op arg decrypted = invoke .rm4pro op arg decrypted) := by
  refine ⟨by decide, by decide, by decide, by decide, by decide, ?_⟩
  intro op arg decrypted
  cases op <;> exact ⟨rfl, rfl⟩

/-- Claim C7: every dispatcher operation that resolves on a variant
hands the transport exactly the packet of its fixed opcode: 0x1 for
fetch status, 0x2 with the code bytes verbatim for send code, 0x3 for
enter learning, 0x4 for check learned code, 0x19 sweep frequency, 0x1A
check frequency, 0x1B find RF packet, 0x1E cancel sweep, and for check
sensors 0x1 when the generation-A body (rmpro) resolves and 0x24 when
the generation-B body (rm4mini) resolves; every operation except send
code carries an empty payload. -/
theorem claim7_opcodes :
    ∀ (c : Cls) (arg decrypted : List Nat),
    ((definer c .fetch_data).isSome = true →
      (invoke c .fetch_data arg decrypted).1 =
        (encodePacket (framing c) 0x1 []).toList) ∧
    ((definer c .send_data).isSome = true →
      (invoke c .send_data arg decrypted).1 =
        (encodePacket (framing c) 0x2 arg).toList) ∧
    ((definer c .enter_learning).isSome = true →
      (invoke c .enter_learning arg decrypted).1 =
        (encodePacket (framing c) 0x3 []).toList) ∧
    ((definer c .check_data).isSome = true →
      (invoke c .check_data arg decrypted).1 =
        (encodePacket (framing c) 0x4 []).toList) ∧
    ((definer c .sweep_frequency).isSome = true →
      (invoke c .sweep_frequency arg decrypted).1 =
        (encodePacket (framing c) 0x19 []).toList) ∧
    ((definer c .check_frequency).isSome = true →
      (invoke c .check_frequency arg decrypted).1 =
        (encodePacket (framing c) 0x1A []).toList) ∧
    ((definer c .find_rf_packet).isSome = true →
      (invoke c .find_rf_packet arg decrypted).1 =
        (encodePacket (framing c) 0x1B []).toList) ∧
    ((definer c .cancel_sweep_frequency).isSome = true →
      (invoke c .cancel_sweep_frequency arg decrypted).1 =
        (encodePacket (framing c) 0x1E []).toList) ∧
    (definer c .check_sensors = some .rmpro →
      (invoke c .check_sensors arg decrypted).1 =
        (encodePacket (framing c) 0x1 []).toList) ∧
    (definer c .check_sensors = some .rm4mini →
      (invoke c .check_sensors arg decrypted).1 =
        (encodePacket (framing c) 0x24 []).toList) := by
  intro c arg decrypted
  cases c <;>
    refine ⟨?_, ?_, ?_, ?_, ?_, ?_, ?_, ?_, ?_, ?_⟩ <;>
    intro h <;>
    first
    | rfl
    | exact absurd h (by decide)

/-- Claim C7 witness: rm4 resolves check_sensors on rm4mini and emits
the extended packet for opcode 0x24, rmpro emits the legacy packet for
opcode 0x19 on sweep frequency. -/
theorem claim7_opcodes_witness :
    definer .rm4 .check_sensors = some .rm4mini ∧
    (invoke .rm4 .check_sensors [] [2, 0]).1 =
      (encodePacket (framing .rm4) 0x24 []).toList ∧
    (definer .rmpro .sweep_frequency).isSome = true ∧
    (invoke .rmpro .sweep_frequency [] []).1 =
      (encodePacket (framing .rmpro) 0x19 []).toList :=
  ⟨by decide,
    (claim7_opcodes .rm4 [] [2, 0]).2.2.2.2.2.2.2.2.2 (by decide),
    by decide,
    (claim7_opcodes .rmpro [] []).2.2.2.2.1 (by decide)⟩

/-- Claim C8: the check_frequency parse returns the truth value of the
first response byte being equal to 1; every other first byte, zero and
0xFF included, yields false. -/
theorem claim8_check_frequency :
    ∀ (k : Cls) (b : Nat) (t : List Nat),
    bodyParse k .check_frequency (b :: t) = .ok (.bool (b == 1)) ∧
    (b == 1) = decide (b = 1) ∧
    bodyParse k .check_frequency (0 :: t) = .ok (.bool false) ∧
    bodyParse k .check_frequency (0xFF :: t) = .ok (.bool false) ∧
    bodyParse k .check_frequency (1 :: t) = .ok (.bool true) := by
  intro k b t
  refine ⟨rfl, ?_, rfl, rfl, rfl⟩
  by_cases h : b = 1 <;> simp [h]

/-- Claim C9: the name field decode stops at the first NUL byte: every
payload whose name region holds the bytes of Living Room followed by a
NUL decodes to exactly the string Living Room, and in general the name
bytes are exactly the region bytes that precede the first NUL. -/
theorem claim9_name_nul :
    ∀ (p xs rest : List Nat),
    (p.drop 0x48 = livingRoomBytes ++ 0 :: rest →
      utf8Decode (nameFieldBytes p) = some "Living Room") ∧
    (p.drop 0x48 = xs ++ 0 :: rest → (∀ x ∈ xs, x ≠ 0) →
      nameFieldBytes p = xs) := by
  intro p xs rest
  constructor
  · intro h
    have hb : nameFieldBytes p = livingRoomBytes := by
      unfold nameFieldBytes
      rw [h]
      exact takeWhile_append_zero _ _ (by decide)
    rw [hb]
    decide
  · intro h hxs
    unfold nameFieldBytes
    rw [h]
    exact takeWhile_append_zero _ _ hxs

set_option maxRecDepth 40000 in
/-- Claim C9 witness at a payload carrying Living Room and three NUL
bytes in its name region. -/
theorem claim9_name_nul_witness :
    (List.replicate 0x48 0x2E ++ livingRoomBytes ++ [0, 0, 0] : List Nat).drop 0x48 =
      livingRoomBytes ++ 0 :: [0, 0] ∧
    utf8Decode (nameFieldBytes
      (List.replicate 0x48 0x2E ++ livingRoomBytes ++ [0, 0, 0])) =
      some "Living Room" :=
  ⟨by decide,
    (claim9_name_nul (List.replicate 0x48 0x2E ++ livingRoomBytes ++ [0, 0, 0])
      [] [0, 0]).1 (by decide)⟩

end Broadlink
